import Mathlib

/-!
Verification of the `dbrownell_Common` task-execution engine against its
specification.  The Python sources are shallowly embedded: pure functions
become Lean functions, Python strings become `List Char` where character
arithmetic matters, the filesystem becomes an association list from paths to
contents, exceptions become an explicit `Except` error channel, and the
mutable per-run state (result slots, aggregate counters) is threaded
explicitly through each step.
-/

/-! ## TextwrapEx.BoundedLJust (TextwrapEx.py lines 306-332) -/

/-- Python slice `l[:k]` for a possibly negative bound `k`.
`l[:k]` with `k < 0` keeps `len(l) + k` leading characters (clamped at 0). -/
def pySliceTo (l : List Char) (k : Int) : List Char :=
  if 0 ≤ k then l.take k.toNat else l.take (l.length - k.natAbs)

/-- Python slice `l[k:]` for a possibly negative bound `k`. -/
def pySliceFrom (l : List Char) (k : Int) : List Char :=
  if 0 ≤ k then l.drop k.toNat else l.drop (l.length - k.natAbs)

/-- The midpoint adjustment: `if not length & 1 and not len_value & 1: midpoint -= 1`. -/
def bljAdjust (L width : Nat) : Int := if width % 2 = 0 ∧ L % 2 = 0 then 1 else 0

/-- `midpoint = math.floor(len_value / 2)`, then adjusted. -/
def bljMid (L width : Nat) : Int := (L / 2 : Nat) - bljAdjust L width

/-- Twice `chars_to_trim`: `chars_to_trim = (len_value - length + 3) / 2` (a float);
we keep the integer numerator and take floor/ceil by `/ 2` and `(+1) / 2`. -/
def bljTrim (L width : Nat) : Nat := L - width + 3

/-- Lower slice bound `midpoint - math.floor(chars_to_trim)`. -/
def bljLo (L width : Nat) : Int := bljMid L width - (bljTrim L width / 2 : Nat)

/-- Upper slice bound `midpoint + math.ceil(chars_to_trim)`. -/
def bljHi (L width : Nat) : Int := bljMid L width + ((bljTrim L width + 1) / 2 : Nat)

/-- `TextwrapEx.BoundedLJust`: left-justify to `width`, or trim with an interior
`...` when the value is longer than `width`. -/
def BoundedLJust (value : List Char) (width : Nat) : List Char :=
  if value.length < width then value ++ List.replicate (width - value.length) ' '
  else if width < value.length then
    pySliceTo value (bljLo value.length width) ++
      ('.' :: '.' :: '.' :: pySliceFrom value (bljHi value.length width))
  else value

/-- The kept left segment of a trimmed string. -/
def bljLeftPart (value : List Char) (width : Nat) : List Char :=
  pySliceTo value (bljLo value.length width)

/-- The kept right segment of a trimmed string. -/
def bljRightPart (value : List Char) (width : Nat) : List Char :=
  pySliceFrom value (bljHi value.length width)

lemma blj_lo_hi (L width : Nat) (h3 : 3 ≤ width) (hlt : width < L) :
    0 ≤ bljLo L width ∧ 0 ≤ bljHi L width ∧ (bljHi L width).toNat ≤ L ∧
    (bljLo L width).toNat + 3 + (L - (bljHi L width).toNat) = width ∧
    L - (bljHi L width).toNat =
      (bljLo L width).toNat + (if width % 2 = 0 then 1 else 0) := by
  unfold bljLo bljHi bljMid bljAdjust bljTrim
  split_ifs <;> omega

/-- The trimmed string has length exactly `width`, provided `3 ≤ width < len`. -/
lemma BoundedLJust_length (value : List Char) (width : Nat) (h3 : 3 ≤ width)
    (hlt : width < value.length) : (BoundedLJust value width).length = width := by
  obtain ⟨hlo, hhi0, hhi, hsum, _⟩ := blj_lo_hi value.length width h3 hlt
  unfold BoundedLJust
  rw [if_neg (by omega), if_pos hlt]
  unfold pySliceTo pySliceFrom
  rw [if_pos hlo, if_pos hhi0]
  simp only [List.length_append, List.length_take, List.length_cons, List.length_drop]
  omega

/-- A list whose length already equals the target width is returned unchanged. -/
lemma BoundedLJust_eq_self (t : List Char) (w : Nat) (h : t.length = w) :
    BoundedLJust t w = t := by
  unfold BoundedLJust
  rw [if_neg (by omega), if_neg (by omega)]

/-- C8: for every string longer than the target width, `BoundedLJust` splices
`left ++ "..." ++ right`, trimming `excess = length - width + 3` characters
around the midpoint, and — as amended — the total width equals the target for
every target width `≥ 3`, with the split biased by one character (the right
segment one longer than the left) exactly when the target width is even.
The original claim's bias condition ("same parity") and its unrestricted
width quantification are corrected by `C8_counterexample`. -/
theorem C8_truncation_amended (value : List Char) (width : Nat) (h3 : 3 ≤ width)
    (hlt : width < value.length) :
    BoundedLJust value width =
        bljLeftPart value width ++ ('.' :: '.' :: '.' :: bljRightPart value width) ∧
      (BoundedLJust value width).length = width ∧
      (bljLeftPart value width).length + (bljRightPart value width).length + 3 = width ∧
      (bljRightPart value width).length =
        (bljLeftPart value width).length + (if width % 2 = 0 then 1 else 0) := by
  obtain ⟨hlo, hhi0, hhi, hsum, hbias⟩ := blj_lo_hi value.length width h3 hlt
  have hleft : (bljLeftPart value width).length = (bljLo value.length width).toNat := by
    unfold bljLeftPart pySliceTo
    rw [if_pos hlo]
    simp only [List.length_take]
    omega
  have hright : (bljRightPart value width).length =
      value.length - (bljHi value.length width).toNat := by
    unfold bljRightPart pySliceFrom
    rw [if_pos hhi0]
    simp only [List.length_drop]
  refine ⟨?_, BoundedLJust_length value width h3 hlt, ?_, ?_⟩
  · unfold BoundedLJust bljLeftPart bljRightPart
    rw [if_neg (by omega), if_pos hlt]
  · omega
  · omega

/-- C8 witness: the amended truncation theorem applied at the concrete input
used by the repository's own unit test (`"0123456789A"` at width 10). -/
theorem C8_witness :
    (BoundedLJust (String.toList "0123456789A") 10).length = 10 :=
  (C8_truncation_amended (String.toList "0123456789A") 10 (by decide) (by decide)).2.1

/-- C8 counterexample: the claim asserts the rendered width equals the target
for *every* width smaller than the string; at width 2 the kept-left slice index
goes negative and Python's negative-slice semantics keep extra characters, so
`BoundedLJust "abcd" 2 = "abc..."`, which has length 6, not 2. -/
theorem C8_counterexample :
    BoundedLJust (String.toList "abcd") 2 = String.toList "abc..." ∧
      (BoundedLJust (String.toList "abcd") 2).length ≠ 2 := by
  constructor <;> decide

/-- C9: truncation is idempotent — as amended, for every width `w ≥ 3` with
`w < len s`, `BoundedLJust (BoundedLJust s w) w = BoundedLJust s w`.  The
original unrestricted claim fails at width 2 (`C9_counterexample`). -/
theorem C9_idempotence_amended (s : List Char) (w : Nat) (h3 : 3 ≤ w)
    (hlt : w < s.length) :
    BoundedLJust (BoundedLJust s w) w = BoundedLJust s w :=
  BoundedLJust_eq_self _ _ (BoundedLJust_length s w h3 hlt)

/-- C9 witness: idempotence at the concrete unit-test input. -/
theorem C9_witness :
    BoundedLJust (BoundedLJust (String.toList "0123456789A") 10) 10 =
      BoundedLJust (String.toList "0123456789A") 10 :=
  C9_idempotence_amended (String.toList "0123456789A") 10 (by decide) (by decide)

/-- C9 counterexample: at width 2 (`w < len s` as the claim requires) the
first truncation of `"abcd"` yields `"abc..."` (length 6), and truncating that
again yields `"abc....."`, so the function is not idempotent there. -/
theorem C9_counterexample :
    BoundedLJust (BoundedLJust (String.toList "abcd") 2) 2 ≠
      BoundedLJust (String.toList "abcd") 2 := by
  decide

/-! ## ExecuteTasks.py — data model

Python exceptions become an explicit value type.  `assertionError` is the
exception raised by a failing `assert` statement. -/

inductive PyExc where
  | keyboardInterrupt : PyExc
  | assertionError : PyExc
  | transformError (msg : String) : PyExc
  | otherError (msg : String) : PyExc
deriving DecidableEq

/-- Python `str(ex)`: the exception message (empty for a bare interrupt or
assertion failure). -/
def PyExc.str : PyExc → String
  | .keyboardInterrupt => ""
  | .assertionError => ""
  | .transformError m => m
  | .otherError m => m

/-- True exactly for the deliberate task-level exception type
(`isinstance(ex, TransformError)`). -/
def PyExc.isTransformError : PyExc → Bool
  | .transformError _ => true
  | _ => false

/-- `CATASTROPHIC_TASK_FAILURE_RESULT` (ExecuteTasks.py line 36). -/
def CATASTROPHIC_TASK_FAILURE_RESULT : Int := -123

/-- `TaskData`: fields populated during execution are `Option`s so that the
Python `hasattr` checks (attribute not yet assigned) can be modelled; for
`short_desc`, `some none` means "assigned the value `None`". -/
structure TaskState (α : Type) where
  display : String
  context : α
  result : Option Int := none
  shortDesc : Option (Option String) := none
  logFilename : Option String := none
deriving DecidableEq

/-- The filesystem: an association list from paths to text contents. -/
def FS : Type := List (String × String)

instance : DecidableEq FS := inferInstanceAs (DecidableEq (List (String × String)))

/-- Does a file exist at path `p`? -/
def FS.fileExists (fs : FS) (p : String) : Bool :=
  (fs : List (String × String)).any (fun kv => kv.1 = p)

/-- `Path.write_text`: create or replace the file at `p`. -/
def FS.writeText (fs : FS) (p content : String) : FS :=
  (p, content) :: (fs : List (String × String)).filter (fun kv => kv.1 ≠ p)

/-- `open(p, "a+")` followed by a write: append, creating the file if absent. -/
def FS.appendText (fs : FS) (p content : String) : FS :=
  match (fs : List (String × String)).lookup p with
  | some old => (p, old ++ content) :: (fs : List (String × String)).filter (fun kv => kv.1 ≠ p)
  | none => (p, content) :: fs

/-- The value returned by an `ExecuteFuncType`: either a `(code, short_desc)`
tuple or a plain integer code. -/
inductive ExecuteFuncResult where
  | pair (code : Int) (shortDesc : Option String) : ExecuteFuncResult
  | plain (code : Int) : ExecuteFuncResult
deriving DecidableEq

/-- The `prepare` callable produced by an init function: invoking it either
raises or yields an optional step count plus the execute callable.  The
execute callable threads a state `σ` (the transform variants mutate the
shared `all_results` list through it) and either raises or returns the new
state and an `ExecuteFuncResult`. -/
def PrepareResult (σ : Type) : Type :=
  Except PyExc (Option Nat × (σ → Except PyExc (σ × ExecuteFuncResult)))

/-- Whitespace for Python `str.strip()` with no arguments. -/
def isPySpace (c : Char) : Bool :=
  c = ' ' || c = '\t' || c = '\n' || c = '\r' || c = '\x0b' || c = '\x0c'

/-- Python `s.strip()`: remove leading and trailing whitespace. -/
def pyStrip (s : String) : String :=
  String.mk (((s.data.dropWhile isPySpace).reverse.dropWhile isPySpace).reverse)

/-- The text the exception handler of `_ExecuteTask` logs: the full
traceback in debug mode, otherwise `str(ex)`; if that is blank after
stripping, fall back to the stripped traceback. -/
def catastrophicLogText (tb : PyExc → String) (isDebug : Bool) (e : PyExc) : String :=
  let err0 := pyStrip (if isDebug then tb e else PyExc.str e)
  if err0 = "" then pyStrip (tb e) else err0

/-- The `finally` suite of `_ExecuteTask` (lines 1246-1256): run the
`assert hasattr(...)` checks — raising `AssertionError`, which replaces any
in-flight exception, when a field was never populated — then flush buffered
log messages to the log file and return (or re-raise). -/
def executeTaskFinalize {α σ : Type} (logMessages : String)
    (after : (TaskState α × σ × FS) ⊕ (TaskState α × σ × FS × PyExc)) :
    Except PyExc (TaskState α × σ × FS) :=
  match after with
  | .inr (td4, _, _, e) =>
    if td4.result = none ∨ td4.shortDesc = none ∨ td4.logFilename = none then
      .error .assertionError
    else .error e
  | .inl (td4, s4, fs4) =>
    if td4.result = none ∨ td4.shortDesc = none ∨ td4.logFilename = none then
      .error .assertionError
    else
      let fs5 :=
        if logMessages = "" then fs4
        else
          match td4.logFilename with
          | some lf => fs4.appendText lf ("\n\n" ++ logMessages ++ "\n")
          | none => fs4
      .ok (td4, s4, fs5)

/-- `_ExecuteTask` (ExecuteTasks.py lines 1155-1256), for one task.

* `tb e` models `traceback.format_exc()` for the in-flight exception `e`;
* `freshName` is the path `PathEx.CreateTempFileName()` would return (the
  temp file is deleted again inside `CreateTempFileName`, so the path does
  not exist until written);
* `logMessages` models `internal_status.log_messages` at finalization;
* the returned `Except` is the exception propagating out of the call, if any.

The body mirrors the Python `try/except KeyboardInterrupt/except
Exception/finally` statement: `afterTry` is the state at the end of the
`try` suite (or the caught exception), the handler classifies and records,
and the `finally` suite runs its `assert hasattr(...)` checks — raising
`AssertionError` (which replaces any in-flight exception) when a field was
never populated — and then flushes buffered log messages. -/
def ExecuteTask {α σ : Type} (tb : PyExc → String) (isDebug : Bool)
    (freshName : String) (desc : String) (td : TaskState α)
    (init : α → Except PyExc (String × PrepareResult σ))
    (logMessages : String) (s : σ) (fs : FS) :
    Except PyExc (TaskState α × σ × FS) :=
  let afterTry : (TaskState α × σ) ⊕ (TaskState α × σ × PyExc) :=
    match init td.context with
    | .error e => .inr (td, s, e)
    | .ok (logfn, prepRes) =>
      let td1 := { td with logFilename := some logfn }
      match prepRes with
      | .error e => .inr (td1, s, e)
      | .ok (_numSteps, execFn) =>
        match execFn s with
        | .error e => .inr (td1, s, e)
        | .ok (s1, .pair code sd) =>
          .inl ({ td1 with result := some code, shortDesc := some sd }, s1)
        | .ok (s1, .plain code) =>
          .inl ({ td1 with result := some code, shortDesc := some none }, s1)
  let afterExcept : (TaskState α × σ × FS) ⊕ (TaskState α × σ × FS × PyExc) :=
    match afterTry with
    | .inl (td2, s2) => .inl (td2, s2, fs)
    | .inr (td2, s2, e) =>
      if e = .keyboardInterrupt then .inr (td2, s2, fs, e)
      else
        let err := catastrophicLogText tb isDebug e
        let (td3, fs1) :=
          match td2.logFilename with
          | none => ({ td2 with logFilename := some freshName }, fs.writeText freshName err)
          | some lf => (td2, fs.appendText lf ("\n\n" ++ err ++ "\n"))
        let (code, sd) :=
          if e.isTransformError then ((1 : Int), td3.display ++ " failed")
          else (CATASTROPHIC_TASK_FAILURE_RESULT, desc ++ " failed")
        .inl ({ td3 with result := some code, shortDesc := some (some sd) }, s2, fs1)
  executeTaskFinalize logMessages afterExcept

/-! ## Result aggregation (`_GenerateExperienceData.OnTaskDataComplete`,
ExecuteTasks.py lines 849-887) -/

/-- The run-scoped counters plus the enclosing `DoneManager`'s result code
(`execute_dm.result`, a plain dataclass field initialized to 0). -/
structure AggState where
  successCount : Nat := 0
  warningCount : Nat := 0
  errorCount : Nat := 0
  dmResult : Int := 0
deriving DecidableEq

/-- One completion callback, performed under `count_lock` (modelled as one
atomic fold step): classify the task result, bump the matching counter, and
escalate `execute_dm.result` when it is still non-negative. -/
def OnTaskDataComplete (st : AggState) (result : Int) : AggState :=
  if result < 0 then
    { st with
      errorCount := st.errorCount + 1,
      dmResult := if 0 ≤ st.dmResult then result else st.dmResult }
  else if 0 < result then
    { st with
      warningCount := st.warningCount + 1,
      dmResult := if 0 ≤ st.dmResult then result else st.dmResult }
  else { st with successCount := st.successCount + 1 }

/-- Completions folded in arrival order, from the initial state. -/
def aggRun (results : List Int) : AggState :=
  results.foldl OnTaskDataComplete {}

lemma OnTaskDataComplete_dmResult_of_neg (st : AggState) (r : Int)
    (h : st.dmResult < 0) : (OnTaskDataComplete st r).dmResult = st.dmResult := by
  unfold OnTaskDataComplete
  split_ifs with h1 h2 <;> simp <;> omega

/-- Once the run result is negative, no later completion changes it. -/
lemma agg_fold_dmResult_of_neg (l : List Int) (st : AggState)
    (h : st.dmResult < 0) :
    (l.foldl OnTaskDataComplete st).dmResult = st.dmResult := by
  induction l generalizing st with
  | nil => rfl
  | cons r rest ih =>
    rw [List.foldl_cons]
    rw [ih _ (by rw [OnTaskDataComplete_dmResult_of_neg st r h]; exact h)]
    exact OnTaskDataComplete_dmResult_of_neg st r h

lemma OnTaskDataComplete_dmResult_of_nonneg_elem (st : AggState) (r : Int)
    (hst : 0 ≤ st.dmResult) (hr : 0 ≤ r) :
    0 ≤ (OnTaskDataComplete st r).dmResult := by
  unfold OnTaskDataComplete
  split_ifs with h1 h2 <;> simp <;> omega

/-- While only non-negative results have completed, the run result stays
non-negative. -/
lemma agg_fold_dmResult_nonneg (l : List Int) (st : AggState)
    (hst : 0 ≤ st.dmResult) (hl : ∀ x ∈ l, 0 ≤ x) :
    0 ≤ (l.foldl OnTaskDataComplete st).dmResult := by
  induction l generalizing st with
  | nil => exact hst
  | cons r rest ih =>
    rw [List.foldl_cons]
    exact ih _ (OnTaskDataComplete_dmResult_of_nonneg_elem st r hst
      (hl r (List.mem_cons_self r rest))) (fun x hx => hl x (List.mem_cons_of_mem r hx))

/-- Completions with result 0 leave the run result unchanged. -/
lemma agg_fold_dmResult_of_zeros (l : List Int) (st : AggState)
    (hl : ∀ x ∈ l, x = 0) :
    (l.foldl OnTaskDataComplete st).dmResult = st.dmResult := by
  induction l generalizing st with
  | nil => rfl
  | cons r rest ih =>
    rw [List.foldl_cons]
    have hr : r = 0 := hl r (List.mem_cons_self r rest)
    have : OnTaskDataComplete st r = { st with successCount := st.successCount + 1 } := by
      unfold OnTaskDataComplete
      subst hr
      norm_num
    rw [this, ih _ (fun x hx => hl x (List.mem_cons_of_mem r hx))]

/-- Every completion bumps exactly one of the three counters. -/
lemma agg_fold_counter_sum (l : List Int) (st : AggState) :
    (l.foldl OnTaskDataComplete st).successCount +
        (l.foldl OnTaskDataComplete st).warningCount +
        (l.foldl OnTaskDataComplete st).errorCount =
      st.successCount + st.warningCount + st.errorCount + l.length := by
  induction l generalizing st with
  | nil => rfl
  | cons r rest ih =>
    rw [List.foldl_cons, ih]
    unfold OnTaskDataComplete
    split_ifs <;> simp <;> omega

/-- A non-zero completion overwrites a still non-negative run result. -/
lemma OnTaskDataComplete_dmResult_escalate (st : AggState) (r : Int)
    (hst : 0 ≤ st.dmResult) (hr : r ≠ 0) :
    (OnTaskDataComplete st r).dmResult = r := by
  unfold OnTaskDataComplete
  split_ifs with h1 h2 <;> simp <;> omega

/-- When every negative completion is `-1` and at least one occurs, the run
result ends at `-1`. -/
lemma agg_fold_dmResult_neg_one (l : List Int) :
    ∀ st : AggState, (∀ x ∈ l, x < 0 → x = -1) → (∃ x ∈ l, x < 0) →
      0 ≤ st.dmResult → (l.foldl OnTaskDataComplete st).dmResult = -1 := by
  induction l with
  | nil =>
    intro st _ hex _
    obtain ⟨x, hx, _⟩ := hex
    exact absurd hx (List.not_mem_nil x)
  | cons r rest ih =>
    intro st hneg hex hst
    rw [List.foldl_cons]
    by_cases hr : r < 0
    · have hr1 : r = -1 := hneg r (List.mem_cons_self r rest) hr
      have hdm : (OnTaskDataComplete st r).dmResult = r :=
        OnTaskDataComplete_dmResult_escalate st r hst (by omega)
      rw [agg_fold_dmResult_of_neg rest _ (by rw [hdm]; omega), hdm]
      exact hr1
    · have hst2 : 0 ≤ (OnTaskDataComplete st r).dmResult :=
        OnTaskDataComplete_dmResult_of_nonneg_elem st r hst (by omega)
      refine ih (OnTaskDataComplete st r)
        (fun x hx hxn => hneg x (List.mem_cons_of_mem r hx) hxn) ?_ hst2
      obtain ⟨x, hx, hxneg⟩ := hex
      rcases List.mem_cons.mp hx with heq | hmem
      · exact absurd (heq ▸ hxneg) hr
      · exact ⟨x, hmem, hxneg⟩

/-- C2: aggregation — as amended: the run-level result is the result code of
the first error seen; when no error has been seen it is the result code of
the *most recent* warning (not the first, as the claim stated — the warning
branch overwrites any previous non-negative run result); once an error has
been recorded no later completion changes the run result; each completed
task increments exactly one of the three counters (the lock is modelled by
making each callback one atomic fold step); and for tasks returning
`[0, 1, -1, 1]` completing in any order the run result is `-1`. -/
theorem C2_escalation_amended :
    (∀ pre r post, r < 0 → (∀ x ∈ pre, 0 ≤ x) →
        (aggRun (pre ++ r :: post)).dmResult = r) ∧
      (∀ rs r, (aggRun rs).dmResult < 0 →
        (OnTaskDataComplete (aggRun rs) r).dmResult = (aggRun rs).dmResult) ∧
      (∀ pre r post, 0 < r → (∀ x ∈ pre, 0 ≤ x) → (∀ x ∈ post, x = 0) →
        (aggRun (pre ++ r :: post)).dmResult = r) ∧
      (∀ rs, (aggRun rs).successCount + (aggRun rs).warningCount +
          (aggRun rs).errorCount = rs.length) ∧
      (∀ rs, rs.Perm ([0, 1, -1, 1] : List Int) → (aggRun rs).dmResult = -1) := by
  refine ⟨?_, ?_, ?_, ?_, ?_⟩
  · intro pre r post hr hpre
    unfold aggRun
    rw [List.foldl_append, List.foldl_cons]
    have h1 : 0 ≤ (pre.foldl OnTaskDataComplete {}).dmResult :=
      agg_fold_dmResult_nonneg pre {} (by decide) hpre
    have h2 : (OnTaskDataComplete (pre.foldl OnTaskDataComplete {}) r).dmResult = r :=
      OnTaskDataComplete_dmResult_escalate _ r h1 (by omega)
    rw [agg_fold_dmResult_of_neg post _ (by rw [h2]; exact hr), h2]
  · intro rs r h
    exact OnTaskDataComplete_dmResult_of_neg _ _ h
  · intro pre r post hr hpre hpost
    unfold aggRun
    rw [List.foldl_append, List.foldl_cons]
    have h1 : 0 ≤ (pre.foldl OnTaskDataComplete {}).dmResult :=
      agg_fold_dmResult_nonneg pre {} (by decide) hpre
    have h2 : (OnTaskDataComplete (pre.foldl OnTaskDataComplete {}) r).dmResult = r :=
      OnTaskDataComplete_dmResult_escalate _ r h1 (by omega)
    rw [agg_fold_dmResult_of_zeros post _ hpost, h2]
  · intro rs
    have h := agg_fold_counter_sum rs {}
    simpa [aggRun] using h
  · intro rs h
    unfold aggRun
    refine agg_fold_dmResult_neg_one rs {} ?_ ?_ (by decide)
    · intro x hx hxneg
      have hx2 : x ∈ ([0, 1, -1, 1] : List Int) := h.mem_iff.mp hx
      simp at hx2
      omega
    · exact ⟨-1, h.mem_iff.mpr (by decide), by omega⟩

/-- C2 witness: the amended aggregation theorem at concrete completion
orders: `[0, 1, -2, 3]` escalates to the first error `-2`, and the
permutation `[1, -1, 1, 0]` of `[0, 1, -1, 1]` aggregates to `-1`. -/
theorem C2_witness :
    (aggRun [0, 1, -2, 3]).dmResult = -2 ∧
      (aggRun [1, -1, 1, 0]).dmResult = -1 :=
  ⟨C2_escalation_amended.1 [0, 1] (-2) [3] (by decide) (by decide),
    C2_escalation_amended.2.2.2.2 [1, -1, 1, 0] (by decide)⟩

/-- C2 counterexample: the claim says the run result is the *first* warning
seen when no error has been seen, but for completion order `[1, 2]` the code
overwrites the recorded `1` (still non-negative) with the later warning `2`. -/
theorem C2_counterexample : (aggRun [1, 2]).dmResult = 2 ∧ (2 : Int) ≠ 1 := by
  decide

/-! ## Value-returning transforms (`_TransformNotCompressed`, ExecuteTasks.py
lines 1295-1400, and `_TransformCompressed`, lines 1404-1537) -/

/-- One slot of `all_results`: `None`, a produced value, or a captured
exception object. -/
inductive Slot (β : Type) where
  | empty : Slot β
  | value (v : β) : Slot β
  | exc (e : PyExc) : Slot β
deriving DecidableEq

/-- The behaviour of one invocation of the user's transform function: return
a plain value, return a `CompleteTransformResult`, or raise. -/
inductive TransformOutcome (β : Type) where
  | value (v : β) : TransformOutcome β
  | complete (v : β) (returnCode : Option Int) (shortDesc : Option String) : TransformOutcome β
  | raise (e : PyExc) : TransformOutcome β
deriving DecidableEq

/-- The `Execute` closure shared by both dispatch strategies (lines
1351-1374 and 1480-1503): run the transform, store its value (or, with
`return_exceptions`, the captured exception) into `all_results[task_index]`,
and produce the task's `(return_code, short_desc)`.  `return_code or 0`
is modelled by `Option.getD 0` (Python's `or` maps both `None` and `0`
to `0`).  `except Exception` does not catch `KeyboardInterrupt`. -/
def transformExecuteFn {β : Type} (returnExceptions : Bool) (taskIndex : Nat)
    (tr : TransformOutcome β) :
    List (Slot β) → Except PyExc (List (Slot β) × ExecuteFuncResult) :=
  fun allResults =>
    match tr with
    | .value v => .ok (allResults.set taskIndex (.value v), .pair 0 none)
    | .complete v rc sd => .ok (allResults.set taskIndex (.value v), .pair (rc.getD 0) sd)
    | .raise e =>
      if e = .keyboardInterrupt then .error e
      else if returnExceptions then
        .ok (allResults.set taskIndex (.exc e), .pair (-1) (some (PyExc.str e)))
      else .error e

/-- Python `f"{n:06}"`. -/
def pad6 (n : Nat) : String :=
  let s := toString n
  String.mk (List.replicate (6 - s.length) '0') ++ s

/-- The log path `temp_directory / f"{index:06}.log"`; the index is the task
index for uncompressed dispatch and the thread index for compressed
dispatch. -/
def tempLogFilename (tempDir : String) (index : Nat) : String :=
  tempDir ++ "/" ++ pad6 index ++ ".log"

/-- The user-supplied `TransformTasksExTypes.PrepareFuncType`, modelled by
its observable behaviour on one call: raise, or return an optional step
count together with the transform function's behaviour. -/
def TransformPrepare (γ β : Type) : Type :=
  γ → Except PyExc (Option Nat × TransformOutcome β)

/-- The `Init` closure of `_TransformNotCompressed` (lines 1323-1385): the
task context has been wrapped as `(task_index, original_context)`; the log
file is one per *task*; the execute closure writes to the task's slot. -/
def transformInitNC {γ β : Type} (returnExceptions : Bool) (tempDir : String)
    (prepare : TransformPrepare γ β) :
    Nat × γ → Except PyExc (String × PrepareResult (List (Slot β))) :=
  fun ctx =>
    .ok (tempLogFilename tempDir ctx.1,
      (prepare ctx.2).map (fun p => (p.1, transformExecuteFn returnExceptions ctx.1 p.2)))

/-- The `Init` closure of `_TransformCompressed` (lines 1454-1514): the task
keeps its original context; the log file is one per *thread*; the execute
closure writes to the slot of the task index handed out by the shared
cursor. -/
def transformInitC {γ β : Type} (returnExceptions : Bool) (tempDir : String)
    (threadIndex taskIndex : Nat) (prepare : TransformPrepare γ β) :
    γ → Except PyExc (String × PrepareResult (List (Slot β))) :=
  fun ctx =>
    .ok (tempLogFilename tempDir threadIndex,
      (prepare ctx).map (fun p => (p.1, transformExecuteFn returnExceptions taskIndex p.2)))

/-- The state threaded through a transform run: the shared `all_results`
list, the aggregate counters, and the filesystem. -/
structure TransformRunState (β : Type) where
  allResults : List (Slot β)
  agg : AggState
  fs : FS
deriving DecidableEq

/-- One task executed by `_TransformNotCompressed`: task `i` runs with the
wrapped context `(i, ctxOf i)` through `_ExecuteTask`, and its completion is
reported to `OnTaskDataComplete`.  (On the `.ok` path the finalization
asserts guarantee `result` is populated, so `Option.getD 0` is never its
default.) -/
def transformStepNC {γ β : Type} (tb : PyExc → String) (isDebug returnExceptions : Bool)
    (desc tempDir : String) (displayOf : Nat → String) (ctxOf : Nat → γ)
    (prepare : TransformPrepare γ β) (st : TransformRunState β) (i : Nat) :
    Except PyExc (TransformRunState β) :=
  match ExecuteTask tb isDebug (tempDir ++ "/tmp" ++ pad6 i) desc
      { display := displayOf i, context := (i, ctxOf i) }
      (transformInitNC returnExceptions tempDir prepare) "" st.allResults st.fs with
  | .error e => .error e
  | .ok (td, res, fs1) =>
    .ok { allResults := res,
          agg := OnTaskDataComplete st.agg (td.result.getD 0),
          fs := fs1 }

/-- `_TransformNotCompressed` over `N` tasks, where `order` is the order in
which the scheduler happens to complete the tasks (execution order across
threads is unspecified; any permutation of `0..N-1` can occur, whatever the
thread count). -/
def transformRunNC {γ β : Type} (tb : PyExc → String) (isDebug returnExceptions : Bool)
    (desc tempDir : String) (N : Nat) (displayOf : Nat → String) (ctxOf : Nat → γ)
    (prepare : TransformPrepare γ β) (order : List Nat) :
    Except PyExc (TransformRunState β) :=
  order.foldlM (transformStepNC tb isDebug returnExceptions desc tempDir displayOf ctxOf prepare)
    { allResults := List.replicate N .empty, agg := {}, fs := [] }

/-- One task executed by `_TransformCompressed`: the shared cursor handed
task index `i` to thread `threadOf i`; the task runs with its original
context and the thread's log file. -/
def transformStepC {γ β : Type} (tb : PyExc → String) (isDebug returnExceptions : Bool)
    (desc tempDir : String) (displayOf : Nat → String) (ctxOf : Nat → γ)
    (threadOf : Nat → Nat) (prepare : TransformPrepare γ β)
    (st : TransformRunState β) (i : Nat) :
    Except PyExc (TransformRunState β) :=
  match ExecuteTask tb isDebug (tempDir ++ "/tmp" ++ pad6 i) desc
      { display := displayOf i, context := ctxOf i }
      (transformInitC returnExceptions tempDir (threadOf i) i prepare) "" st.allResults st.fs with
  | .error e => .error e
  | .ok (td, res, fs1) =>
    .ok { allResults := res,
          agg := OnTaskDataComplete st.agg (td.result.getD 0),
          fs := fs1 }

/-- `_TransformCompressed` over `N` tasks: the cursor hands out indices
`0..N-1` exactly once each, but the order in which the resulting slot
writes and completions land is an arbitrary interleaving `order`. -/
def transformRunC {γ β : Type} (tb : PyExc → String) (isDebug returnExceptions : Bool)
    (desc tempDir : String) (N : Nat) (displayOf : Nat → String) (ctxOf : Nat → γ)
    (threadOf : Nat → Nat) (prepare : TransformPrepare γ β) (order : List Nat) :
    Except PyExc (TransformRunState β) :=
  order.foldlM
    (transformStepC tb isDebug returnExceptions desc tempDir displayOf ctxOf threadOf prepare)
    { allResults := List.replicate N .empty, agg := {}, fs := [] }

deriving instance DecidableEq for Except

/-- Successful transform returning a plain value: the value lands in slot
`i`, the task completes with result 0, the filesystem is untouched. -/
lemma transformStepNC_value {γ β : Type} (tb : PyExc → String)
    (isDebug retEx : Bool) (desc tempDir : String) (displayOf : Nat → String)
    (ctxOf : Nat → γ) (prepare : TransformPrepare γ β)
    (st : TransformRunState β) (i : Nat) (ns : Option Nat) (v : β)
    (h : prepare (ctxOf i) = .ok (ns, .value v)) :
    transformStepNC tb isDebug retEx desc tempDir displayOf ctxOf prepare st i =
      .ok { allResults := st.allResults.set i (.value v),
            agg := OnTaskDataComplete st.agg 0,
            fs := st.fs } := by
  simp [transformStepNC, ExecuteTask, executeTaskFinalize, transformInitNC, transformExecuteFn, Except.map, h]

/-- Raising transform with exception capture: the captured exception lands
in slot `i`, the task completes with result `-1` and `str(ex)` as its short
description, the filesystem is untouched. -/
lemma transformStepNC_raise_captured {γ β : Type} (tb : PyExc → String)
    (isDebug : Bool) (desc tempDir : String) (displayOf : Nat → String)
    (ctxOf : Nat → γ) (prepare : TransformPrepare γ β)
    (st : TransformRunState β) (i : Nat) (ns : Option Nat) (e : PyExc)
    (he : e ≠ .keyboardInterrupt)
    (h : prepare (ctxOf i) = .ok (ns, .raise e)) :
    transformStepNC tb isDebug true desc tempDir displayOf ctxOf prepare st i =
      .ok { allResults := st.allResults.set i (.exc e),
            agg := OnTaskDataComplete st.agg (-1),
            fs := st.fs } := by
  simp [transformStepNC, ExecuteTask, executeTaskFinalize, transformInitNC, transformExecuteFn, Except.map, h, he]

/-- Raising transform without exception capture: the exception propagates
out of `Execute`, `_ExecuteTask` classifies it (here: not a
`TransformError`, hence the catastrophic sentinel), appends the error text
to the task's log file, and the result slot stays untouched. -/
lemma transformStepNC_raise_uncaptured {γ β : Type} (tb : PyExc → String)
    (isDebug : Bool) (desc tempDir : String) (displayOf : Nat → String)
    (ctxOf : Nat → γ) (prepare : TransformPrepare γ β)
    (st : TransformRunState β) (i : Nat) (ns : Option Nat) (msg : String)
    (h : prepare (ctxOf i) = .ok (ns, .raise (.otherError msg))) :
    transformStepNC tb isDebug false desc tempDir displayOf ctxOf prepare st i =
      .ok { allResults := st.allResults,
            agg := OnTaskDataComplete st.agg CATASTROPHIC_TASK_FAILURE_RESULT,
            fs := st.fs.appendText (tempLogFilename tempDir i)
              ("\n\n" ++ catastrophicLogText tb isDebug (.otherError msg) ++ "\n") } := by
  simp [transformStepNC, ExecuteTask, executeTaskFinalize, transformInitNC,
    transformExecuteFn, Except.map, h, PyExc.isTransformError]

/-- Successful transform under compressed dispatch: same slot write as the
uncompressed case (the slot index is the cursor-issued task index, not the
thread index). -/
lemma transformStepC_value {γ β : Type} (tb : PyExc → String)
    (isDebug retEx : Bool) (desc tempDir : String) (displayOf : Nat → String)
    (ctxOf : Nat → γ) (threadOf : Nat → Nat) (prepare : TransformPrepare γ β)
    (st : TransformRunState β) (i : Nat) (ns : Option Nat) (v : β)
    (h : prepare (ctxOf i) = .ok (ns, .value v)) :
    transformStepC tb isDebug retEx desc tempDir displayOf ctxOf threadOf prepare st i =
      .ok { allResults := st.allResults.set i (.value v),
            agg := OnTaskDataComplete st.agg 0,
            fs := st.fs } := by
  simp [transformStepC, ExecuteTask, executeTaskFinalize, transformInitC, transformExecuteFn, Except.map, h]

/-- The result-slot writes performed by a run, in completion order:
`all_results[i] = g i` for each `i` in `order`. -/
def applySlotWrites {β : Type} (res : List (Slot β)) (order : List Nat)
    (g : Nat → Slot β) : List (Slot β) :=
  order.foldl (fun r i => r.set i (g i)) res

lemma applySlotWrites_getElem? {β : Type} (order : List Nat) (g : Nat → Slot β) :
    ∀ (res : List (Slot β)) (j : Nat),
      (applySlotWrites res order g)[j]? =
        if j ∈ order ∧ j < res.length then some (g j) else res[j]? := by
  induction order with
  | nil =>
    intro res j
    simp [applySlotWrites]
  | cons i rest ih =>
    intro res j
    have hstep : applySlotWrites res (i :: rest) g =
        applySlotWrites (res.set i (g i)) rest g := rfl
    rw [hstep, ih]
    by_cases hji : j = i
    · subst hji
      by_cases hlen : j < res.length
      · by_cases hjr : j ∈ rest <;>
          simp [hjr, hlen, List.getElem?_set, List.mem_cons]
      · by_cases hjr : j ∈ rest <;>
          simp [hjr, hlen, List.getElem?_set, List.mem_cons] <;> omega
    · by_cases hjr : j ∈ rest <;>
        simp [hjr, hji, List.getElem?_set, Ne.symm hji, List.mem_cons]

/-- Writing `g i` into slot `i` once for every `i < N`, in any order, turns
the preallocated list into the index-aligned map of `g`. -/
lemma applySlotWrites_eq_map {β : Type} (N : Nat) (order : List Nat)
    (g : Nat → Slot β) (h : ∀ j, j ∈ order ↔ j ∈ List.range N) :
    applySlotWrites (List.replicate N Slot.empty) order g =
      (List.range N).map g := by
  apply List.ext_getElem?
  intro j
  rw [applySlotWrites_getElem?]
  by_cases hj : j < N
  · have hmem : j ∈ order := (h j).mpr (List.mem_range.mpr hj)
    simp [hmem, hj, List.getElem?_map, List.getElem?_range hj]
  · have hmem : j ∉ order := fun hm => hj (List.mem_range.mp ((h j).mp hm))
    have hlen1 : (List.replicate N (Slot.empty : Slot β)).length ≤ j := by
      simpa using Nat.le_of_not_lt hj
    have hlen2 : ((List.range N).map g).length ≤ j := by
      simpa using Nat.le_of_not_lt hj
    simp [hmem, List.getElem?_eq_none hlen1, List.getElem?_eq_none hlen2]

/-- A run of only-successful completions bumps only the success counter. -/
lemma agg_fold_zeros_full (l : List Int) :
    ∀ st : AggState, (∀ x ∈ l, x = 0) →
      l.foldl OnTaskDataComplete st =
        { st with successCount := st.successCount + l.length } := by
  induction l with
  | nil => intro st _; rfl
  | cons r rest ih =>
    intro st hl
    have hr : r = 0 := hl r (List.mem_cons_self r rest)
    rw [List.foldl_cons]
    have hstep : OnTaskDataComplete st r = { st with successCount := st.successCount + 1 } := by
      subst hr
      unfold OnTaskDataComplete
      norm_num
    rw [hstep, ih _ (fun x hx => hl x (List.mem_cons_of_mem r hx))]
    simp [List.length_cons]
    omega

/-- A run of completions that all carry the same negative result `r` bumps
only the error counter and (when nonempty, starting non-negative) escalates
the run result to `r`. -/
lemma agg_fold_neg_const_full (l : List Int) (r : Int) (hr : r < 0) :
    ∀ st : AggState, (∀ x ∈ l, x = r) →
      l.foldl OnTaskDataComplete st =
        { st with
          errorCount := st.errorCount + l.length,
          dmResult :=
            if l.length = 0 then st.dmResult
            else if 0 ≤ st.dmResult then r else st.dmResult } := by
  induction l with
  | nil =>
    intro st _
    simp
  | cons r0 rest ih =>
    intro st hl
    have hr0 : r0 = r := hl r0 (List.mem_cons_self r0 rest)
    rw [List.foldl_cons]
    have hstep : OnTaskDataComplete st r0 =
        { st with
          errorCount := st.errorCount + 1,
          dmResult := if 0 ≤ st.dmResult then r else st.dmResult } := by
      subst hr0
      unfold OnTaskDataComplete
      rw [if_pos hr]
    rw [hstep, ih _ (fun x hx => hl x (List.mem_cons_of_mem r0 hx))]
    simp only [List.length_cons]
    split_ifs <;> simp_all <;> omega

/-- Bind on a successful `Except` computes the continuation. -/
lemma except_ok_bind {eps alpha beta' : Type} (x : alpha) (f : alpha → Except eps beta') :
    (Except.ok x >>= f) = f x := rfl

/-- Folding a run whose every step writes slot `i` and reports result
`rOf i`, leaving the filesystem untouched. -/
lemma transformFold_set {β : Type}
    (step : TransformRunState β → Nat → Except PyExc (TransformRunState β))
    (g : Nat → Slot β) (rOf : Nat → Int) :
    ∀ order : List Nat,
      (∀ (st : TransformRunState β) (i : Nat), i ∈ order →
        step st i = .ok { allResults := st.allResults.set i (g i),
                          agg := OnTaskDataComplete st.agg (rOf i), fs := st.fs }) →
      ∀ st : TransformRunState β,
        order.foldlM step st =
          .ok { allResults := applySlotWrites st.allResults order g,
                agg := (order.map rOf).foldl OnTaskDataComplete st.agg,
                fs := st.fs } := by
  intro order
  induction order with
  | nil =>
    intro _ st
    rfl
  | cons i rest ih =>
    intro hstep st
    rw [List.foldlM_cons, hstep st i (List.mem_cons_self i rest), except_ok_bind,
      ih (fun st1 j hj => hstep st1 j (List.mem_cons_of_mem i hj))]
    rfl

/-- Folding a run whose every step leaves the result slots untouched,
reports result `rOf i`, and updates the filesystem by `fsUpd`; only the
slots and the aggregate state are characterized. -/
lemma transformFold_noset {β : Type}
    (step : TransformRunState β → Nat → Except PyExc (TransformRunState β))
    (fsUpd : FS → Nat → FS) (rOf : Nat → Int) :
    ∀ order : List Nat,
      (∀ (st : TransformRunState β) (i : Nat), i ∈ order →
        step st i = .ok { allResults := st.allResults,
                          agg := OnTaskDataComplete st.agg (rOf i),
                          fs := fsUpd st.fs i }) →
      ∀ st : TransformRunState β,
        (order.foldlM step st).map (fun s => (s.allResults, s.agg)) =
          .ok (st.allResults, (order.map rOf).foldl OnTaskDataComplete st.agg) := by
  intro order
  induction order with
  | nil =>
    intro _ st
    rfl
  | cons i rest ih =>
    intro hstep st
    rw [List.foldlM_cons, hstep st i (List.mem_cons_self i rest), except_ok_bind,
      ih (fun st1 j hj => hstep st1 j (List.mem_cons_of_mem i hj))]
    rfl

/-- C1: index alignment — running the value-returning scheduler over `N`
tasks whose contexts are `0..N-1` with transform `f(i) = i*2` writes each
produced value into the preallocated slot at that task's input index, so the
returned list is `[0, 2, ..., 2(N-1)]` for *any* completion order (thread
counts only influence the order, which is universally quantified), for both
the uncompressed and the compressed dispatch strategy, and for either
exception-capture setting. -/
theorem C1_index_alignment (tb : PyExc → String) (isDebug retEx : Bool)
    (desc tempDir : String) (displayOf : Nat → String) (threadOf : Nat → Nat)
    (N : Nat) (order orderC : List Nat)
    (h1 : order.Perm (List.range N)) (h2 : orderC.Perm (List.range N)) :
    transformRunNC tb isDebug retEx desc tempDir N displayOf (fun i => i)
        (fun c => .ok (none, .value (2 * c))) order =
      .ok { allResults := (List.range N).map (fun i => Slot.value (2 * i)),
            agg := { successCount := N }, fs := [] } ∧
      transformRunC tb isDebug retEx desc tempDir N displayOf (fun i => i) threadOf
          (fun c => .ok (none, .value (2 * c))) orderC =
        .ok { allResults := (List.range N).map (fun i => Slot.value (2 * i)),
              agg := { successCount := N }, fs := [] } := by
  have hzeros : ∀ (o : List Nat) (x : Int), x ∈ o.map (fun _ => (0 : Int)) → x = 0 := by
    intro o x hx
    obtain ⟨a, -, rfl⟩ := List.mem_map.mp hx
    rfl
  constructor
  · unfold transformRunNC
    rw [transformFold_set
      (transformStepNC tb isDebug retEx desc tempDir displayOf (fun i => i)
        (fun c => .ok (none, .value (2 * c))))
      (fun i => Slot.value (2 * i)) (fun _ => (0 : Int)) order
      (fun st i _ => transformStepNC_value tb isDebug retEx desc tempDir displayOf
        (fun i => i) (fun c => .ok (none, .value (2 * c))) st i none (2 * i) rfl) _]
    rw [applySlotWrites_eq_map N order (fun i => Slot.value (2 * i)) (fun j => h1.mem_iff),
      agg_fold_zeros_full _ {} (hzeros order)]
    simp [h1.length_eq]
  · unfold transformRunC
    rw [transformFold_set
      (transformStepC tb isDebug retEx desc tempDir displayOf (fun i => i) threadOf
        (fun c => .ok (none, .value (2 * c))))
      (fun i => Slot.value (2 * i)) (fun _ => (0 : Int)) orderC
      (fun st i _ => transformStepC_value tb isDebug retEx desc tempDir displayOf
        (fun i => i) threadOf (fun c => .ok (none, .value (2 * c))) st i none (2 * i) rfl) _]
    rw [applySlotWrites_eq_map N orderC (fun i => Slot.value (2 * i)) (fun j => h2.mem_iff),
      agg_fold_zeros_full _ {} (hzeros orderC)]
    simp [h2.length_eq]

/-- C1 witness: three tasks, completion orders `[2, 0, 1]` (uncompressed)
and `[1, 2, 0]` (compressed, both tasks landing on thread 0) produce
`[0, 2, 4]`. -/
theorem C1_witness :
    transformRunNC (fun _ => "TB") false false "batch" "T" 3 (fun i => toString i)
        (fun i => i) (fun c => .ok (none, .value (2 * c))) [2, 0, 1] =
      .ok { allResults := (List.range 3).map (fun i => Slot.value (2 * i)),
            agg := { successCount := 3 }, fs := [] } ∧
      transformRunC (fun _ => "TB") false false "batch" "T" 3 (fun i => toString i)
          (fun i => i) (fun _ => 0) (fun c => .ok (none, .value (2 * c))) [1, 2, 0] =
        .ok { allResults := (List.range 3).map (fun i => Slot.value (2 * i)),
              agg := { successCount := 3 }, fs := [] } :=
  C1_index_alignment (fun _ => "TB") false false "batch" "T" (fun i => toString i)
    (fun _ => 0) 3 [2, 0, 1] [1, 2, 0] (by decide) (by decide)

/-- C7: a transform that always raises a non-`TransformError` exception.
With exception capture (`return_exceptions=True`) every slot of the returned
list holds the captured exception object carrying the original message and
the run result is `-1`; without capture every slot stays `None` and the run
result is the catastrophic sentinel `-123`. -/
theorem C7_exception_capture (tb : PyExc → String) (isDebug : Bool)
    (desc tempDir : String) (displayOf : Nat → String) (m : Nat → String)
    (N : Nat) (order : List Nat) (h : order.Perm (List.range N)) (hN : 0 < N) :
    transformRunNC tb isDebug true desc tempDir N displayOf (fun i => i)
        ((fun c => .ok (none, .raise (.otherError (m c)))) : TransformPrepare Nat Nat) order =
      .ok { allResults := (List.range N).map (fun i => Slot.exc (.otherError (m i))),
            agg := { errorCount := N, dmResult := -1 }, fs := [] } ∧
      (transformRunNC tb isDebug false desc tempDir N displayOf (fun i => i)
          ((fun c => .ok (none, .raise (.otherError (m c)))) : TransformPrepare Nat Nat) order).map
          (fun st => (st.allResults, st.agg)) =
        .ok (List.replicate N Slot.empty,
          { errorCount := N, dmResult := CATASTROPHIC_TASK_FAILURE_RESULT }) := by
  have hlen : order.length = N := by
    have := h.length_eq
    simpa using this
  constructor
  · unfold transformRunNC
    rw [transformFold_set
      (transformStepNC tb isDebug true desc tempDir displayOf (fun i => i)
        ((fun c => .ok (none, .raise (.otherError (m c)))) : TransformPrepare Nat Nat))
      (fun i => Slot.exc (.otherError (m i))) (fun _ => (-1 : Int)) order
      (fun st i _ => transformStepNC_raise_captured tb isDebug desc tempDir displayOf
        (fun i => i) ((fun c => .ok (none, .raise (.otherError (m c)))) : TransformPrepare Nat Nat) st i none
        (.otherError (m i)) (by simp) rfl) _]
    rw [applySlotWrites_eq_map N order (fun i => Slot.exc (.otherError (m i)))
      (fun j => h.mem_iff)]
    rw [agg_fold_neg_const_full _ (-1) (by omega) {} ?_]
    · simp [hlen]
      omega
    · intro x hx
      obtain ⟨a, -, rfl⟩ := List.mem_map.mp hx
      rfl
  · unfold transformRunNC
    rw [transformFold_noset
      (transformStepNC tb isDebug false desc tempDir displayOf (fun i => i)
        ((fun c => .ok (none, .raise (.otherError (m c)))) : TransformPrepare Nat Nat))
      (fun fs i => fs.appendText (tempLogFilename tempDir i)
        ("\n\n" ++ catastrophicLogText tb isDebug (.otherError (m i)) ++ "\n"))
      (fun _ => CATASTROPHIC_TASK_FAILURE_RESULT) order
      (fun st i _ => transformStepNC_raise_uncaptured tb isDebug desc tempDir displayOf
        (fun i => i) ((fun c => .ok (none, .raise (.otherError (m c)))) : TransformPrepare Nat Nat) st i none (m i) rfl) _]
    rw [agg_fold_neg_const_full _ CATASTROPHIC_TASK_FAILURE_RESULT (by decide) {} ?_]
    · simp [hlen, CATASTROPHIC_TASK_FAILURE_RESULT]
      omega
    · intro x hx
      obtain ⟨a, -, rfl⟩ := List.mem_map.mp hx
      rfl

/-- C7 witness: two always-raising tasks (messages `boom0`, `boom1`),
completion order `[1, 0]`. -/
theorem C7_witness :
    transformRunNC (fun _ => "TB") false true "batch" "T" 2 (fun i => toString i)
        (fun i => i) ((fun c => .ok (none, .raise (.otherError ("boom" ++ toString c)))) : TransformPrepare Nat Nat) [1, 0] =
      .ok { allResults := (List.range 2).map
              (fun i => Slot.exc (.otherError ("boom" ++ toString i))),
            agg := { errorCount := 2, dmResult := -1 }, fs := [] } ∧
      (transformRunNC (fun _ => "TB") false false "batch" "T" 2 (fun i => toString i)
          (fun i => i) ((fun c => .ok (none, .raise (.otherError ("boom" ++ toString c)))) : TransformPrepare Nat Nat) [1, 0]).map
          (fun st => (st.allResults, st.agg)) =
        .ok (List.replicate 2 Slot.empty,
          { errorCount := 2, dmResult := CATASTROPHIC_TASK_FAILURE_RESULT }) :=
  C7_exception_capture (fun _ => "TB") false "batch" "T" (fun i => toString i)
    (fun c => "boom" ++ toString c) 2 [1, 0] (by decide) (by decide)

/-- A concrete traceback renderer for the closed evaluations. -/
def tbDemo : PyExc → String := fun e => "TRACE " ++ PyExc.str e

/-- An init function whose Prepare/Execute phase raises `e` (Init itself
succeeds and establishes the log file `log0`). -/
def initExecRaises (e : PyExc) : Unit → Except PyExc (String × PrepareResult Unit) :=
  fun _ => .ok ("log0", .ok (none, fun _ => .error e))

/-- C3: exception policy during Prepare/Execute, evaluated on the embedded
`_ExecuteTask`: a `TransformError` maps to result `1` with short description
`<display> failed` and its message is appended to the log; any other
exception maps to the catastrophic sentinel `-123` with `<batch desc>
failed`, logging `str(ex)` normally and the traceback in debug mode.  The
final conjuncts document the code bug: when `Execute` raises
`KeyboardInterrupt`, `except KeyboardInterrupt: raise` re-raises it, but the
`finally` suite's `assert hasattr(task_data, "result")` fails (no result was
ever recorded on that path), so an `AssertionError` — not the interrupt —
propagates out of the task execution. -/
theorem C3_exception_policy_evaluation :
    ExecuteTask tbDemo false "fresh0" "batch" { display := "taskA", context := () }
        (initExecRaises (.transformError "boom")) "" () [] =
      .ok ({ display := "taskA", context := (), result := some 1,
             shortDesc := some (some "taskA failed"), logFilename := some "log0" },
           (), [("log0", "\n\nboom\n")]) ∧
      ExecuteTask tbDemo false "fresh0" "batch" { display := "taskA", context := () }
          (initExecRaises (.otherError "kaboom")) "" () [] =
        .ok ({ display := "taskA", context := (), result := some (-123),
               shortDesc := some (some "batch failed"), logFilename := some "log0" },
             (), [("log0", "\n\nkaboom\n")]) ∧
      ExecuteTask tbDemo true "fresh0" "batch" { display := "taskA", context := () }
          (initExecRaises (.otherError "kaboom")) "" () [] =
        .ok ({ display := "taskA", context := (), result := some (-123),
               shortDesc := some (some "batch failed"), logFilename := some "log0" },
             (), [("log0", "\n\nTRACE kaboom\n")]) ∧
      ExecuteTask tbDemo false "fresh0" "batch" { display := "taskA", context := () }
          (initExecRaises .keyboardInterrupt) "" () [] =
        (.error .assertionError : Except PyExc (TaskState Unit × Unit × FS)) ∧
      (.error .assertionError : Except PyExc (TaskState Unit × Unit × FS)) ≠
        .error .keyboardInterrupt := by
  refine ⟨?_, ?_, ?_, ?_, ?_⟩ <;> decide

/-- C4 counterexample: an `init_func` that raises the deliberate task-level
exception type (`TransformError`) is *not* classified as catastrophic — the
handler checks only the exception's type, not the phase — so the result is
`1` (not `-123`) and the short description references the task's display
name (not the batch description). -/
theorem C4_counterexample :
    ExecuteTask tbDemo false "fresh0" "batch" { display := "taskA", context := () }
        ((fun _ => .error (.transformError "boom")) :
          Unit → Except PyExc (String × PrepareResult Unit)) "" () [] =
      .ok ({ display := "taskA", context := (), result := some 1,
             shortDesc := some (some "taskA failed"), logFilename := some "fresh0" },
           (), [("fresh0", "boom")]) ∧
      (1 : Int) ≠ CATASTROPHIC_TASK_FAILURE_RESULT := by
  refine ⟨?_, ?_⟩ <;> decide

/-- C4: init-phase failure — as amended: an exception raised by the Init
step yields the catastrophic sentinel `-123` and the batch-description-based
short description only when it is *not* a `TransformError`; a
`TransformError` from Init is classified as a task-logic failure (result
`1`, `<display> failed`).  The original "regardless of the exception's
type" is refuted by `C4_counterexample`. -/
theorem C4_init_failure_amended {α σ : Type} (tb : PyExc → String) (isDebug : Bool)
    (freshName desc d : String) (c : α) (logM : String) (s : σ) (fs : FS)
    (e : PyExc) (he : e ≠ .keyboardInterrupt) :
    (ExecuteTask tb isDebug freshName desc { display := d, context := c }
        (fun _ => .error e) logM s fs).map (fun r => (r.1.result, r.1.shortDesc)) =
      .ok (some (if e.isTransformError then 1 else CATASTROPHIC_TASK_FAILURE_RESULT),
        some (some ((if e.isTransformError then d else desc) ++ " failed"))) := by
  by_cases hte : e.isTransformError <;>
    simp [ExecuteTask, executeTaskFinalize, Except.map, he, hte]

/-- C4 witness: the amended theorem at a concrete non-`TransformError`
init failure. -/
theorem C4_witness :
    (ExecuteTask tbDemo false "fresh0" "batch" { display := "taskA", context := () }
        ((fun _ => .error (.otherError "kaboom")) :
          Unit → Except PyExc (String × PrepareResult Unit)) "" () []).map
        (fun r => (r.1.result, r.1.shortDesc)) =
      .ok (some CATASTROPHIC_TASK_FAILURE_RESULT, some (some "batch failed")) := by
  have h := C4_init_failure_amended (σ := Unit) tbDemo false "fresh0" "batch" "taskA"
    () "" () [] (.otherError "kaboom") (by decide)
  simpa using h

/-- Appending to a file (creating it if absent) makes it exist. -/
lemma FS.fileExists_appendText (fs : FS) (p c : String) :
    (fs.appendText p c).fileExists p = true := by
  unfold FS.appendText FS.fileExists
  cases h : (fs : List (String × String)).lookup p <;> simp

/-- `write_text` makes the file exist. -/
lemma FS.fileExists_writeText (fs : FS) (p c : String) :
    (fs.writeText p c).fileExists p = true := by
  unfold FS.writeText FS.fileExists
  simp

/-- On every successful return of the finalize stage, the asserts have
passed (the log filename is populated), and when buffered log messages
existed they were flushed to that log file. -/
lemma executeTaskFinalize_ok_inv {α σ : Type} (logM : String)
    (after : (TaskState α × σ × FS) ⊕ (TaskState α × σ × FS × PyExc))
    (td1 : TaskState α) (s1 : σ) (fs1 : FS)
    (hok : executeTaskFinalize logM after = .ok (td1, s1, fs1)) :
    ∃ lf, td1.logFilename = some lf ∧ (logM ≠ "" → fs1.fileExists lf = true) := by
  rcases after with ⟨td4, s4, fs4⟩ | ⟨td4, s4, fs4, e⟩ <;>
    rw [executeTaskFinalize] at hok
  · by_cases hasserts : td4.result = none ∨ td4.shortDesc = none ∨ td4.logFilename = none
    · rw [if_pos hasserts] at hok
      cases hok
    · rw [if_neg hasserts] at hok
      push_neg at hasserts
      obtain ⟨-, -, hlog⟩ := hasserts
      rw [Except.ok.injEq, Prod.mk.injEq, Prod.mk.injEq] at hok
      obtain ⟨h1, -, h3⟩ := hok
      subst h1
      cases hlf : td4.logFilename with
      | none => exact absurd hlf hlog
      | some lf =>
        refine ⟨lf, rfl, fun hlm => ?_⟩
        rw [← h3, if_neg hlm, hlf]
        exact FS.fileExists_appendText fs4 lf ("\n\n" ++ logM ++ "\n")
  · by_cases hasserts : td4.result = none ∨ td4.shortDesc = none ∨ td4.logFilename = none
    · rw [if_pos hasserts] at hok
      cases hok
    · rw [if_neg hasserts] at hok
      cases hok

/-- On every successful return of `_ExecuteTask`, the finalization asserts
have passed, so the log filename is populated; and if any buffered log
messages existed they were flushed, so the log file then exists. -/
lemma ExecuteTask_ok_inv {α σ : Type} (tb : PyExc → String) (isDebug : Bool)
    (freshName desc : String) (td : TaskState α)
    (init : α → Except PyExc (String × PrepareResult σ))
    (logM : String) (s : σ) (fs : FS) (td1 : TaskState α) (s1 : σ) (fs1 : FS)
    (hok : ExecuteTask tb isDebug freshName desc td init logM s fs = .ok (td1, s1, fs1)) :
    ∃ lf, td1.logFilename = some lf ∧ (logM ≠ "" → fs1.fileExists lf = true) := by
  unfold ExecuteTask at hok
  exact executeTaskFinalize_ok_inv logM _ td1 s1 fs1 hok

/-- C5 counterexample: a task that succeeds without writing any log content
finishes with `log_filename` populated, but no file was ever created at that
path — refuting the claim that the path exists "for tasks that succeeded
without writing any log content". -/
theorem C5_counterexample :
    ExecuteTask tbDemo false "fresh0" "batch" { display := "taskA", context := () }
        ((fun _ => .ok ("quiet.log", .ok (none, fun u => .ok (u, .plain 0)))) :
          Unit → Except PyExc (String × PrepareResult Unit)) "" () [] =
      .ok ({ display := "taskA", context := (), result := some 0,
             shortDesc := some none, logFilename := some "quiet.log" },
           (), []) ∧
      FS.fileExists [] "quiet.log" = false := by
  refine ⟨?_, ?_⟩ <;> decide

/-- C5: log-file guarantees — as amended: after every completed task
execution `log_filename` is populated, and the path refers to an existing
file whenever the task failed — if the Init step raised before any log file
was established, a fresh temp-file path is synthesized and the error text
written to it; if a log file had already been established and the Prepare or
Execute phase raised, the error text is appended to it via `open("a+")`,
creating it on first write — or whenever the task buffered any log content
(flushed at finalization); only a task that succeeds without writing any log
content may leave the path nonexistent (`C5_counterexample`). -/
theorem C5_log_file_amended :
    (∀ {α σ : Type} (tb : PyExc → String) (isDebug : Bool) (freshName desc : String)
        (td : TaskState α) (init : α → Except PyExc (String × PrepareResult σ))
        (logM : String) (s : σ) (fs : FS) (td1 : TaskState α) (s1 : σ) (fs1 : FS),
      ExecuteTask tb isDebug freshName desc td init logM s fs = .ok (td1, s1, fs1) →
      ∃ lf, td1.logFilename = some lf ∧ (logM ≠ "" → fs1.fileExists lf = true)) ∧
      (∀ {α σ : Type} (tb : PyExc → String) (isDebug : Bool)
          (freshName desc d : String) (c : α) (logM : String) (s : σ) (fs : FS)
          (e : PyExc), e ≠ .keyboardInterrupt →
        (ExecuteTask tb isDebug freshName desc { display := d, context := c }
            (fun _ => .error e) logM s fs).map
            (fun r => (r.1.logFilename, r.2.2.fileExists freshName)) =
          .ok (some freshName, true)) ∧
      (∀ {α σ : Type} (tb : PyExc → String) (isDebug : Bool)
          (freshName desc d : String) (c : α) (logfn logM : String) (s : σ)
          (fs : FS) (e : PyExc), e ≠ .keyboardInterrupt →
        (ExecuteTask tb isDebug freshName desc { display := d, context := c }
            ((fun _ => .ok (logfn, .error e)) :
              α → Except PyExc (String × PrepareResult σ)) logM s fs).map
            (fun r => (r.1.logFilename, r.2.2.fileExists logfn)) =
          .ok (some logfn, true)) ∧
      (∀ {α σ : Type} (tb : PyExc → String) (isDebug : Bool)
          (freshName desc d : String) (c : α) (logfn logM : String)
          (ns : Option Nat) (execFn : σ → Except PyExc (σ × ExecuteFuncResult))
          (s : σ) (fs : FS) (e : PyExc), e ≠ .keyboardInterrupt →
        execFn s = .error e →
        (ExecuteTask tb isDebug freshName desc { display := d, context := c }
            (fun _ => .ok (logfn, .ok (ns, execFn))) logM s fs).map
            (fun r => (r.1.logFilename, r.2.2.fileExists logfn)) =
          .ok (some logfn, true)) := by
  refine ⟨?_, ?_, ?_, ?_⟩
  · intro α σ tb isDebug freshName desc td init logM s fs td1 s1 fs1 hok
    exact ExecuteTask_ok_inv tb isDebug freshName desc td init logM s fs td1 s1 fs1 hok
  · intro α σ tb isDebug freshName desc d c logM s fs e he
    by_cases hte : e.isTransformError <;> by_cases hlm : logM = "" <;>
      simp [ExecuteTask, executeTaskFinalize, Except.map, he, hte, hlm,
        FS.fileExists_writeText, FS.fileExists_appendText]
  · intro α σ tb isDebug freshName desc d c logfn logM s fs e he
    by_cases hte : e.isTransformError <;> by_cases hlm : logM = "" <;>
      simp [ExecuteTask, executeTaskFinalize, Except.map, he, hte, hlm,
        FS.fileExists_appendText]
  · intro α σ tb isDebug freshName desc d c logfn logM ns execFn s fs e he hexec
    by_cases hte : e.isTransformError <;> by_cases hlm : logM = "" <;>
      simp [ExecuteTask, executeTaskFinalize, Except.map, he, hte, hlm, hexec,
        FS.fileExists_appendText]

/-- C5 witness: the amended theorem at concrete inputs — a task whose init
raises before any log file exists gets a fresh, existing temp-file path, and
a task whose Execute raises after `estab.log` was established has the error
appended so `estab.log` exists. -/
theorem C5_witness :
    (ExecuteTask tbDemo false "fresh0" "batch" { display := "taskA", context := () }
        ((fun _ => .error (.otherError "kaboom")) :
          Unit → Except PyExc (String × PrepareResult Unit)) "" () []).map
        (fun r => (r.1.logFilename, r.2.2.fileExists "fresh0")) =
      .ok (some "fresh0", true) ∧
      (ExecuteTask tbDemo false "fresh0" "batch" { display := "taskA", context := () }
          ((fun _ => .ok ("estab.log", .ok (none, fun _ => .error (.otherError "late")))) :
            Unit → Except PyExc (String × PrepareResult Unit)) "" () []).map
          (fun r => (r.1.logFilename, r.2.2.fileExists "estab.log")) =
        .ok (some "estab.log", true) :=
  ⟨C5_log_file_amended.2.1 tbDemo false "fresh0" "batch" "taskA" () "" () []
      (.otherError "kaboom") (by decide),
    C5_log_file_amended.2.2.2 tbDemo false "fresh0" "batch" "taskA" () "estab.log" ""
      none (fun _ => .error (.otherError "late")) () [] (.otherError "late")
      (by decide) rfl⟩

/-! ## YieldQueueExecutor (ExecuteTasks.py lines 440-588) -/

/-- The `Execute` wrapper built inside the queue worker (lines 537-548):
run the user's execute function and return `(0, execute_func(status))`; an
exception from the user's function propagates. -/
def yieldQueueExecuteFn (inner : Except PyExc (Option String)) :
    Unit → Except PyExc (Unit × ExecuteFuncResult) :=
  fun u => inner.map (fun v => (u, .pair 0 v))

/-- The `Init` closure built inside the queue worker (lines 511-559): the
log file is the worker thread's; the user's prepare result (optional step
count plus execute behaviour) is wrapped by `yieldQueueExecuteFn`. -/
def yieldQueueInit (logFilename : String)
    (prep : Except PyExc (Option Nat × Except PyExc (Option String))) :
    Unit → Except PyExc (String × PrepareResult Unit) :=
  fun _ => .ok (logFilename, prep.map (fun p => (p.1, yieldQueueExecuteFn p.2)))

/-- C10: a queue-mode task whose execute function returns normally always
records result code `0`, with the function's returned optional string as the
short description — a return value can never signal a warning or error. -/
theorem C10_queue_result_code (tb : PyExc → String) (isDebug : Bool)
    (freshName desc taskDesc logfn : String) (ns : Option Nat)
    (v : Option String) (fs : FS) :
    (ExecuteTask tb isDebug freshName desc { display := taskDesc, context := () }
        (yieldQueueInit logfn (.ok (ns, .ok v))) "" () fs).map
        (fun r => (r.1.result, r.1.shortDesc)) =
      .ok (some 0, some v) := by
  simp [ExecuteTask, executeTaskFinalize, yieldQueueInit, yieldQueueExecuteFn, Except.map]

/-! ## TransformTasksEx thread-allocation policy (ExecuteTasks.py lines
374-397 and the `assert num_threads > 1` at line 1417) -/

/-- `num_threads = min(len(tasks), cpu_count)`, capped by `max_num_threads`
when that is truthy (`if max_num_threads:` — `None` and `0` are falsy). -/
def transformNumThreads (numTasks cpuCount : Nat) (maxNumThreads : Option Nat) : Nat :=
  let n := min numTasks cpuCount
  match maxNumThreads with
  | some c => if c ≠ 0 then min n c else n
  | none => n

/-- `if no_compress_tasks or num_threads < cpu_count: _TransformNotCompressed
else: _TransformCompressed` — `true` when the compressed strategy is
selected. -/
def transformUsesCompressed (noCompressTasks : Bool) (numTasks cpuCount : Nat)
    (maxNumThreads : Option Nat) : Bool :=
  !(noCompressTasks ||
    decide (transformNumThreads numTasks cpuCount maxNumThreads < cpuCount))

/-- The `assert num_threads > 1, num_threads` at the top of
`_TransformCompressed`. -/
def transformCompressedPrecondition (numThreads : Nat) : Bool :=
  decide (1 < numThreads)

/-- C6: thread allocation for `TransformTasksEx`.  The effective thread
count is `min(T, P, maxThreads-or-P)` (with a truthy cap).  For `P ≥ 2` the
dispatch choice matches the claim: uncompressed exactly when compression was
disabled, or the effective thread count is below `P`, or only one thread
would run.  The final conjunct exhibits the bug: on a single-CPU host
(`P = 1`, so "only one thread would run"), compressed dispatch is selected
anyway, and its own `assert num_threads > 1` then fails. -/
theorem C6_dispatch_policy :
    (∀ T P : Nat, transformNumThreads T P none = min T P) ∧
      (∀ T P c : Nat, 0 < c → transformNumThreads T P (some c) = min T (min P c)) ∧
      (∀ (nc : Bool) (T P : Nat) (cap : Option Nat), 2 ≤ P →
        (transformUsesCompressed nc T P cap = false ↔
          (nc = true ∨ transformNumThreads T P cap < P ∨
            transformNumThreads T P cap = 1))) ∧
      (transformUsesCompressed false 2 1 none = true ∧
        transformNumThreads 2 1 none = 1 ∧
        transformCompressedPrecondition (transformNumThreads 2 1 none) = false) := by
  refine ⟨?_, ?_, ?_, ?_⟩
  · intro T P
    rfl
  · intro T P c hc
    simp [transformNumThreads, Nat.pos_iff_ne_zero.mp hc, Nat.min_assoc]
  · intro nc T P cap hP
    cases nc <;> simp [transformUsesCompressed] <;> omega
  · refine ⟨?_, ?_, ?_⟩ <;> decide

/-- C6 witness: the policy theorem at concrete inputs — 8 tasks, 4 CPUs,
cap 2 gives 2 threads; and with 4 CPUs, no cap and compression enabled the
dispatch-choice equivalence holds. -/
theorem C6_witness :
    transformNumThreads 8 4 (some 2) = min 8 (min 4 2) ∧
      (transformUsesCompressed false 8 4 none = false ↔
        (false = true ∨ transformNumThreads 8 4 none < 4 ∨
          transformNumThreads 8 4 none = 1)) :=
  ⟨C6_dispatch_policy.2.1 8 4 2 (by decide),
    C6_dispatch_policy.2.2.1 false 8 4 none (by decide)⟩
